import Mathlib

/-
  Verification development for Gnezdo (src/main.rs), a browser-driven
  search scraper.  The definitions below are a shallow embedding of the
  control flow and pure data transformations of `main.rs`:

  * HTML parsing is external (the `scraper` crate); a result page is
    embedded as the list of anchor elements matching the structural
    selector, each with an optional `href` attribute and the texts of its
    `h3` descendants, exactly the data `extract_search_results` reads.
  * Strings are `List Char` so every definition is executable and
    decidable.
  * The filesystem is explicit state (`FSState`); filesystem calls are
    modelled as succeeding (environmental I/O failures are outside the
    embedding).  Sleeps are recorded as data, not performed.
  * The pagination loop of `execute_single_query` and the orchestration
    loop of `run_all_queries` are embedded as trace-producing functions
    over an environment describing, per page / per attempt, what the
    external browser reports (extracted anchors, whether the `#pnnext`
    control is found, whether the click on it fails — the loop's fallible
    control-channel step).  The page loop's iteration count is bounded by
    `max_pages` in the source, which is the fuel of `execPages`; the
    orchestration `while` loop gets an explicit fuel argument.
-/

namespace Gnezdo

abbrev Str := List Char

/-! ## Result extraction (`extract_search_results`, main.rs:211-233) -/

/-- One anchor element matching `a[jsname="UWckNb"]`: its `href`
attribute (absent ⇒ `""` in the source) and the collected texts of its
`h3` descendants in document order (the source takes the first). -/
structure Anchor where
  href : Option Str
  h3texts : List Str
deriving DecidableEq

/-- Embeds `element.value().attr("href").unwrap_or("")`. -/
def anchorUrl (a : Anchor) : Str := a.href.getD []

/-- Embeds `element.select(h3).next().map(collect text).unwrap_or_default()`. -/
def anchorTitle (a : Anchor) : Str := a.h3texts.head?.getD []

/-- The loop body of `extract_search_results`: walk elements in document
order, keeping `(title, url)` only when both are non-empty and the url
has not been seen; `seen` is the `seen_urls` set (as a list). -/
def extractGo : List Anchor → List Str → List (Str × Str)
  | [], _ => []
  | a :: rest, seen =>
    let url := anchorUrl a
    let title := anchorTitle a
    if url ≠ [] ∧ title ≠ [] ∧ url ∉ seen then
      (title, url) :: extractGo rest (url :: seen)
    else
      extractGo rest seen

/-- Embeds `extract_search_results` (main.rs:211-233) on the matched anchors. -/
def extract_search_results (anchors : List Anchor) : List (Str × Str) :=
  extractGo anchors []

/-- Spec-side definition, following the spec's words for `extract`:
an element is accepted iff both url and title are non-empty. -/
def acceptedRecords : List Anchor → List (Str × Str)
  | [] => []
  | a :: rest =>
    if anchorUrl a ≠ [] ∧ anchorTitle a ≠ [] then
      (anchorTitle a, anchorUrl a) :: acceptedRecords rest
    else
      acceptedRecords rest

/-- Spec-side definition: de-duplication by url keeping the first
(document-order) occurrence, dropping later duplicates. -/
def dedupFirst : List (Str × Str) → List Str → List (Str × Str)
  | [], _ => []
  | r :: rest, seen =>
    if r.2 ∈ seen then dedupFirst rest seen
    else r :: dedupFirst rest (r.2 :: seen)

/-! ## Query sanitization (`init_query_result_dir`, main.rs:166-180)
and per-page file naming (`save_search_results_json`, main.rs:182-209) -/

/-- Embeds `str::replace(pat, "_")` for a single-character pattern. -/
def replaceAll (pat : Char) (s : Str) : Str :=
  s.map fun c => if c = pat then '_' else c

/-- The `safe_query` computation of `init_query_result_dir`: the nine
successive single-character replacements, innermost first, exactly in
source order `/ \ : * ? " < > |`. -/
def safe_query (q : Str) : Str :=
  replaceAll '|' (replaceAll '>' (replaceAll '<' (replaceAll '\"'
    (replaceAll '?' (replaceAll '*' (replaceAll ':'
      (replaceAll '\\' (replaceAll '/' q))))))))

/-- The per-character effect of the nine replacements, for comparison. -/
def sanitizeChar (c : Char) : Char :=
  if c = '/' ∨ c = '\\' ∨ c = ':' ∨ c = '*' ∨ c = '?' ∨ c = '\"' ∨
      c = '<' ∨ c = '>' ∨ c = '|' then '_' else c

/-- The on-disk location of one page's JSON file inside a run directory:
the query's sanitized directory together with the page number (the file
name is `{page_num}.json`, and `page_num ↦ "{page_num}.json"` is
injective, so the pair determines the path). -/
def pageFile (q : Str) (page_num : Nat) : Str × Nat :=
  (safe_query q, page_num)

/-! ## Keep-alive pause (`human_pause_with_keepalive`, main.rs:1054-1066) -/

/-- The `while elapsed < total_ms` loop: each iteration sleeps
`min (total_ms - elapsed) 400` and issues one keep-alive evaluation.
`remaining = total_ms - elapsed` strictly decreases, so `remaining`
itself bounds the iteration count and serves as fuel. -/
def pauseSlices : Nat → Nat → List Nat
  | 0, _ => []
  | fuel + 1, remaining =>
    if remaining = 0 then []
    else
      let sleep_time := min remaining 400
      sleep_time :: pauseSlices fuel (remaining - sleep_time)

/-- Embeds `human_pause_with_keepalive`: returns the list of sleep slices; one
keep-alive `tab.evaluate("1")` is issued after every slice, so the
number of keep-alives is the length of this list. -/
def human_pause_with_keepalive (total_ms : Nat) : List Nat :=
  pauseSlices total_ms total_ms

/-! ## Profile store and browser lifecycle (main.rs:145-157, 248-319) -/

/-- The on-disk profile directory: whether it exists and its entries. -/
structure FSState where
  profileExists : Bool
  profileEntries : List Str
deriving DecidableEq

/-- Embeds `clear_profile_dir` (main.rs:151-157): `remove_dir_all` if the
directory exists, otherwise a no-op. -/
def clear_profile_dir (fs : FSState) : FSState :=
  if fs.profileExists then { profileExists := false, profileEntries := [] }
  else fs

/-- Embeds `init_profile_dir` (main.rs:145-149): `create_dir_all`, creating an
empty directory when absent and preserving contents when present. -/
def init_profile_dir (fs : FSState) : FSState :=
  if fs.profileExists then fs
  else { profileExists := true, profileEntries := [] }

/-- Result of `launch_browser`: the session (none when `Browser::new`
fails), the filesystem afterwards, and a snapshot of the profile
directory contents at the moment `Browser::new` is called. -/
structure LaunchOut where
  session : Option Nat
  fs : FSState
  profileAtLaunch : List Str
deriving DecidableEq

/-- Embeds `launch_browser` (main.rs:267-319): clear the profile dir, recreate
it, then start the browser (outcome given by `launchOk`; `sid` is the
fresh session's identity). -/
def launch_browser (launchOk : Bool) (sid : Nat) (fs : FSState) : LaunchOut :=
  let fs2 := init_profile_dir (clear_profile_dir fs)
  { session := if launchOk then some sid else none
    fs := fs2
    profileAtLaunch := fs2.profileEntries }

/-- State of `BrowserManager`: at most one live session plus the profile
directory it owns. -/
structure MState where
  browser : Option Nat
  fs : FSState
deriving DecidableEq

/-- Result of `restart`: the manager state afterwards, whether relaunch
succeeded, the settle sleep performed, and the profile contents observed
at relaunch. -/
structure RestartOut where
  state : MState
  ok : Bool
  sleptMs : Nat
  profileAtLaunch : List Str
deriving DecidableEq

/-- Embeds `BrowserManager::restart` (main.rs:255-261): drop the live session
(`self.browser = None`), sleep 2000 ms, then `launch_browser`; on
launch failure the `?` propagates with `browser` still `None`. -/
def restart (launchOk : Bool) (sid : Nat) (st : MState) : RestartOut :=
  let torn : MState := { st with browser := none }
  let lo := launch_browser launchOk sid torn.fs
  { state := { browser := lo.session, fs := lo.fs }
    ok := lo.session.isSome
    sleptMs := 2000
    profileAtLaunch := lo.profileAtLaunch }

/-! ## Single-query pagination loop (`execute_single_query`, main.rs:879-963) -/

/-- The configuration fields `run_all_queries` / `execute_single_query`
read (`Config`, main.rs:35-54). -/
structure Config where
  max_pages : Nat
  max_consecutive_no_next : Nat
  search_queries : List Str

/-- Observable events of one `execute_single_query` run.  Counter values
recorded in `lookupFound` / `lookupMiss` / `ackReset` are the value of
`*consecutive_no_next` immediately after that step's assignment. -/
inductive QEvent where
  | write (page_num : Nat) (records : List (Str × Str))
  | lookupFound (page_num : Nat) (counterAfter : Nat)
  | lookupMiss (page_num : Nat) (counterAfter : Nat)
  | ackReset (counterAfter : Nat)
deriving DecidableEq

/-- What the external browser reports to one `execute_single_query`
attempt: the anchors in each page's HTML, whether the bounded wait for
`#pnnext` succeeds after each page, and whether the subsequent
`next_button.click()` fails (the loop's fallible control-channel step). -/
structure PageEnv where
  anchors : Nat → List Anchor
  next_found : Nat → Bool
  click_fails : Nat → Bool

/-- Result of one `execute_single_query` attempt: its event trace, the
final value of `*consecutive_no_next`, and whether it returned `Ok`. -/
structure QOut where
  events : List QEvent
  counter : Nat
  isOk : Bool
deriving DecidableEq

/-- Embeds the guard `if !results.is_empty()` around `save_search_results_json` — the
page-write event, emitted only for a non-empty extraction. -/
def wevOf (page_num : Nat) (results : List (Str × Str)) : List QEvent :=
  if results = [] then [] else [QEvent.write page_num results]

/-- The `for page in 0..max_pages` loop of `execute_single_query`
(main.rs:907-960), with `page_num = page + 1`.  Per iteration: extract,
write if non-empty, break if `page_num >= max_pages`; otherwise look up
`#pnnext`: found ⇒ `*consecutive_no_next = 0`, click (propagating a
click failure as `Err`), continue at `page_num + 1`; missing ⇒
increment the counter, and when it reaches
`max_consecutive_no_next` block for operator acknowledgment and reset
it to 0; either way break.  The fuel is the loop's remaining iteration
count, `max_pages` at entry. -/
def execPages (cfg : Config) (env : PageEnv) : Nat → Nat → Nat → QOut
  | 0, _, counter => ⟨[], counter, true⟩
  | fuel + 1, page_num, counter =>
    let results := extract_search_results (env.anchors page_num)
    let wev := wevOf page_num results
    if page_num ≥ cfg.max_pages then
      ⟨wev, counter, true⟩
    else if env.next_found page_num then
      if env.click_fails page_num then
        ⟨wev ++ [QEvent.lookupFound page_num 0], 0, false⟩
      else
        let rest := execPages cfg env fuel (page_num + 1) 0
        ⟨wev ++ QEvent.lookupFound page_num 0 :: rest.events, rest.counter, rest.isOk⟩
    else
      let c := counter + 1
      if c ≥ cfg.max_consecutive_no_next then
        ⟨wev ++ [QEvent.lookupMiss page_num c, QEvent.ackReset 0], 0, true⟩
      else
        ⟨wev ++ [QEvent.lookupMiss page_num c], c, true⟩

/-- Embeds `execute_single_query` (main.rs:879-963): the page loop entered at
`page_num = 1` with the caller's `*consecutive_no_next` value. -/
def execute_single_query (cfg : Config) (env : PageEnv) (counter : Nat) : QOut :=
  execPages cfg env cfg.max_pages 1 counter

/-- Page numbers of the write events of a trace. -/
def qWritePages (evs : List QEvent) : List Nat :=
  evs.filterMap fun e =>
    match e with
    | QEvent.write p _ => some p
    | _ => none

/-- Page numbers at which a `#pnnext` lookup was resolved (found or
missed). -/
def qLookupPages (evs : List QEvent) : List Nat :=
  evs.filterMap fun e =>
    match e with
    | QEvent.lookupFound p _ => some p
    | QEvent.lookupMiss p _ => some p
    | _ => none

/-- Number of operator-acknowledgment (blocking) events in a trace. -/
def qAckCount (evs : List QEvent) : Nat :=
  (evs.filterMap fun e =>
    match e with
    | QEvent.ackReset k => some k
    | _ => none).length

/-- The page at which an event resolved a `#pnnext` lookup, if it is a
lookup event. -/
def lookupPageOf : QEvent → Option Nat
  | QEvent.lookupFound p _ => some p
  | QEvent.lookupMiss p _ => some p
  | _ => none

/-! ## Orchestration loop (`run_all_queries`, main.rs:745-849) -/

/-- Embeds `const MAX_RETRIES: u32 = 3` (main.rs:755). -/
def MAX_RETRIES : Nat := 3

/-- Observable events of the orchestration loop.  `attemptStart` records
the values of `query_index`, `retry_count` and `consecutive_no_next` at
the start of a query attempt (just before `execute_single_query`). -/
inductive RunEvent where
  | attemptStart (query_index retry_count counter : Nat)
  | fileWrite (dir : Str) (page_num : Nat)
  | ack
  | restartBrowser
  | skip (query_index : Nat)
deriving DecidableEq

/-- Lift one attempt's page-level events to run-level events: each page
write becomes a file write into the query's sanitized directory, each
acknowledgment becomes a run-level `ack`. -/
def attemptEvents (query : Str) (evs : List QEvent) : List RunEvent :=
  evs.filterMap fun e =>
    match e with
    | QEvent.write p _ => some (RunEvent.fileWrite (safe_query query) p)
    | QEvent.ackReset _ => some RunEvent.ack
    | _ => none

/-- The `while query_index < queries.len()` loop of `run_all_queries`
(main.rs:759-842).  `t` counts loop iterations and indexes the
environment; `tabOk t` is whether iteration `t` obtains a usable tab
(when it does not, the source skips the query with the retry counter
reset).  On `Ok`: advance, reset `retry_count`, and restart the browser
when queries remain.  On `Err`: increment `retry_count`; at
`MAX_RETRIES` skip to the next query with the counter reset, otherwise
restart and retry the same index.  `consecutive_no_next` is threaded
through attempts unchanged by the loop itself.  The source loop
terminates because each iteration advances `query_index` or increments
`retry_count` (bounded by `MAX_RETRIES`); `fuel` makes that bound an
explicit argument. -/
def run_all_queries (cfg : Config) (tabOk : Nat → Bool) (env : Nat → PageEnv) :
    Nat → Nat → Nat → Nat → Nat → List RunEvent
  | 0, _, _, _, _ => []
  | fuel + 1, t, query_index, retry_count, counter =>
    if query_index < cfg.search_queries.length then
      let query := cfg.search_queries.getD query_index []
      if tabOk t then
        let out := execute_single_query cfg (env t) counter
        let evs := RunEvent.attemptStart query_index retry_count counter ::
          attemptEvents query out.events
        if out.isOk then
          evs ++
            (if query_index + 1 < cfg.search_queries.length then
              [RunEvent.restartBrowser] else []) ++
            run_all_queries cfg tabOk env fuel (t + 1) (query_index + 1) 0 out.counter
        else if retry_count + 1 ≥ MAX_RETRIES then
          evs ++ run_all_queries cfg tabOk env fuel (t + 1) (query_index + 1) 0 out.counter
        else
          evs ++ RunEvent.restartBrowser ::
            run_all_queries cfg tabOk env fuel (t + 1) query_index (retry_count + 1) out.counter
      else
        RunEvent.skip query_index ::
          run_all_queries cfg tabOk env fuel (t + 1) (query_index + 1) 0 counter
    else []

/-- The `consecutive_no_next` value at the start of each attempt, in run
order. -/
def attemptCounters (tr : List RunEvent) : List Nat :=
  tr.filterMap fun e =>
    match e with
    | RunEvent.attemptStart _ _ c => some c
    | _ => none

/-- The page files written over a run, in write order. -/
def fileWrites (tr : List RunEvent) : List (Str × Nat) :=
  tr.filterMap fun e =>
    match e with
    | RunEvent.fileWrite d p => some (d, p)
    | _ => none

/-! ## Concrete environments and configurations used in the instances -/

/-- No extraction results, next-page control found on every page, clicks
never fail. -/
def envC1found : PageEnv := ⟨fun _ => [], fun _ => true, fun _ => false⟩

/-- Next-page control never found, no extraction results. -/
def envC1miss : PageEnv := ⟨fun _ => [], fun _ => false, fun _ => false⟩

/-- Two queries, page cap 2, no-next threshold 2. -/
def cfgC1 : Config := ⟨2, 2, [['a'], ['b']]⟩

/-- One query, page cap 2, no-next threshold 2. -/
def cfgC2 : Config := ⟨2, 2, [['a']]⟩

/-- Page 1 extracts one record; the next-page control is found but the
click on it always fails, so the query executor always fails. -/
def envC2 : PageEnv :=
  ⟨fun p => if p = 1 then [⟨some ['u'], [['t']]⟩] else [],
   fun _ => true, fun _ => true⟩

/-- One query, page cap 3, no-next threshold 2. -/
def cfgC3 : Config := ⟨3, 2, [['a']]⟩

/-- Every page extracts nothing; next-page control always found. -/
def envC3empty : PageEnv := ⟨fun _ => [], fun _ => true, fun _ => false⟩

/-- Every page extracts one record; next-page control always found. -/
def envC3full : PageEnv :=
  ⟨fun _ => [⟨some ['u'], [['t']]⟩], fun _ => true, fun _ => false⟩

/-- One query, page cap 2, no-next threshold 2. -/
def cfgC4 : Config := ⟨2, 2, [['a']]⟩

/-- Next-page control never found, no extraction results. -/
def envC4 : PageEnv := ⟨fun _ => [], fun _ => false, fun _ => false⟩

/-- One query, page cap 2, no-next threshold 2. -/
def cfgC7 : Config := ⟨2, 2, [['a']]⟩

/-- Page 1 extracts one record; the next-page click always fails, so
every attempt writes page 1's file and then fails. -/
def envC7 : PageEnv :=
  ⟨fun p => if p = 1 then [⟨some ['u'], [['t']]⟩] else [],
   fun _ => true, fun _ => true⟩

/-- One query, page cap 2, no-next threshold 2. -/
def cfgC10 : Config := ⟨2, 2, [['a']]⟩

/-- Every page extracts nothing; next-page control never found. -/
def envC10 : PageEnv := ⟨fun _ => [], fun _ => false, fun _ => false⟩

/-! ## Lemmas about the extractor -/

theorem extractGo_components_ne_nil (anchors : List Anchor) :
    ∀ seen r, r ∈ extractGo anchors seen → r.1 ≠ [] ∧ r.2 ≠ [] := by
  induction anchors with
  | nil => intro seen r h; simp [extractGo] at h
  | cons a rest ih =>
    intro seen r h
    simp only [extractGo] at h
    split at h
    · rename_i hc
      rcases List.mem_cons.mp h with h1 | h1
      · subst h1; exact ⟨hc.2.1, hc.1⟩
      · exact ih _ _ h1
    · exact ih _ _ h

theorem extractGo_urls_fresh_nodup (anchors : List Anchor) :
    ∀ seen, (∀ u ∈ (extractGo anchors seen).map Prod.snd, u ∉ seen) ∧
      ((extractGo anchors seen).map Prod.snd).Nodup := by
  induction anchors with
  | nil => intro seen; simp [extractGo]
  | cons a rest ih =>
    intro seen
    simp only [extractGo]
    split
    · rename_i hc
      constructor
      · intro u hu
        simp only [List.map_cons, List.mem_cons] at hu
        rcases hu with rfl | hu
        · exact hc.2.2
        · have h2 := (ih (anchorUrl a :: seen)).1 u hu
          intro hmem
          exact h2 (List.mem_cons_of_mem _ hmem)
      · simp only [List.map_cons, List.nodup_cons]
        refine ⟨?_, (ih _).2⟩
        intro hmem
        exact (ih (anchorUrl a :: seen)).1 _ hmem (List.mem_cons_self _ _)
    · exact ih seen

theorem extractGo_eq_dedupFirst (anchors : List Anchor) :
    ∀ seen, extractGo anchors seen = dedupFirst (acceptedRecords anchors) seen := by
  induction anchors with
  | nil => intro seen; rfl
  | cons a rest ih =>
    intro seen
    simp only [extractGo, acceptedRecords]
    by_cases hacc : anchorUrl a ≠ [] ∧ anchorTitle a ≠ []
    · by_cases hseen : anchorUrl a ∈ seen
      · rw [if_neg (by intro h; exact h.2.2 hseen), if_pos hacc]
        show _ = dedupFirst ((anchorTitle a, anchorUrl a) :: acceptedRecords rest) seen
        simp only [dedupFirst]
        rw [if_pos hseen]
        exact ih seen
      · rw [if_pos ⟨hacc.1, hacc.2, hseen⟩, if_pos hacc]
        show _ = dedupFirst ((anchorTitle a, anchorUrl a) :: acceptedRecords rest) seen
        simp only [dedupFirst]
        rw [if_neg hseen, ih]
    · rw [if_neg (by intro h; exact hacc ⟨h.1, h.2.1⟩), if_neg hacc]
      exact ih seen

/-- C5: for every input document, the extractor returns no record with
an empty title or url, its url values are pairwise distinct, and the
output is exactly the first-occurrence de-duplication (in document
order) of the accepted records — later duplicates of a url are dropped
in favour of the first occurrence. -/
theorem extract_nonempty_nodup_first_occurrence (anchors : List Anchor) :
    (∀ r ∈ extract_search_results anchors, r.1 ≠ [] ∧ r.2 ≠ []) ∧
    ((extract_search_results anchors).map Prod.snd).Nodup ∧
    extract_search_results anchors = dedupFirst (acceptedRecords anchors) [] :=
  ⟨fun r hr => extractGo_components_ne_nil anchors [] r hr,
   (extractGo_urls_fresh_nodup anchors []).2,
   extractGo_eq_dedupFirst anchors []⟩

/-- Concrete instance of C5 on a one-anchor document. -/
theorem extract_nonempty_nodup_first_occurrence_witness :
    (['t'] : Str) ≠ [] ∧ (['u'] : Str) ≠ [] :=
  (extract_nonempty_nodup_first_occurrence [⟨some ['u'], [['t']]⟩]).1
    (['t'], ['u']) (by decide)

/-! ## Lemmas about the sanitizer -/

theorem safe_query_eq_map (q : Str) : q.map sanitizeChar = safe_query q := by
  induction q with
  | nil => rfl
  | cons c q ih =>
    simp only [safe_query, replaceAll, List.map_cons] at ih ⊢
    rw [← ih]
    refine congrArg₂ List.cons ?_ rfl
    by_cases h1 : c = '/'
    · subst h1; decide
    by_cases h2 : c = '\\'
    · subst h2; decide
    by_cases h3 : c = ':'
    · subst h3; decide
    by_cases h4 : c = '*'
    · subst h4; decide
    by_cases h5 : c = '?'
    · subst h5; decide
    by_cases h6 : c = '\"'
    · subst h6; decide
    by_cases h7 : c = '<'
    · subst h7; decide
    by_cases h8 : c = '>'
    · subst h8; decide
    by_cases h9 : c = '|'
    · subst h9; decide
    simp [sanitizeChar, h1, h2, h3, h4, h5, h6, h7, h8, h9]

/-- C9: the filesystem-safe transform replaces exactly the nine
characters `/ \ : * ? " < > |` by `'_'` (it acts characterwise as
`sanitizeChar`), and it is not injective: the distinct queries `a/b`
and `a_b` sanitize to the same directory name, so their page-1 result
files coincide and can overwrite each other. -/
theorem safe_query_not_injective :
    (∀ q : Str, safe_query q = q.map sanitizeChar) ∧
    ['/', '\\', ':', '*', '?', '\"', '<', '>', '|'].map sanitizeChar
      = List.replicate 9 '_' ∧
    safe_query ['a', '/', 'b'] = ['a', '_', 'b'] ∧
    safe_query ['a', '_', 'b'] = ['a', '_', 'b'] ∧
    (['a', '/', 'b'] : Str) ≠ ['a', '_', 'b'] ∧
    pageFile ['a', '/', 'b'] 1 = pageFile ['a', '_', 'b'] 1 :=
  ⟨fun q => (safe_query_eq_map q).symm, by decide, by decide, by decide,
   by decide, by decide⟩

/-! ## Lemmas about the keep-alive pause -/

theorem pauseSlices_sum : ∀ fuel remaining, remaining ≤ fuel →
    (pauseSlices fuel remaining).sum = remaining := by
  intro fuel
  induction fuel with
  | zero =>
    intro r hr
    have h0 : r = 0 := Nat.le_zero.mp hr
    subst h0; rfl
  | succ n ih =>
    intro r hr
    by_cases hr0 : r = 0
    · subst hr0; simp [pauseSlices]
    · have hmin : min r 400 ≤ r := Nat.min_le_left r 400
      have h1 : 1 ≤ min r 400 :=
        le_min (Nat.one_le_iff_ne_zero.mpr hr0) (by norm_num)
      have h2 : r - min r 400 ≤ n := by omega
      simp only [pauseSlices, if_neg hr0, List.sum_cons]
      rw [ih _ h2]
      omega

/-- C8: the keep-alive pause sleeps in slices summing to exactly the
requested total for every `total_ms`; for `total_ms = 950` (slice size
400) the slices are `[400, 400, 150]`, hence exactly 3 keep-alive
evaluations are issued. -/
theorem human_pause_with_keepalive_total :
    (∀ total_ms, (human_pause_with_keepalive total_ms).sum = total_ms) ∧
    human_pause_with_keepalive 950 = [400, 400, 150] ∧
    (human_pause_with_keepalive 950).length = 3 :=
  ⟨fun t => pauseSlices_sum t t (le_refl t), by decide, by decide⟩

/-! ## Lemmas about the browser lifecycle -/

/-! ## Lemmas about the pagination loop -/

theorem mem_wevOf {e : QEvent} {p : Nat} {r : List (Str × Str)}
    (h : e ∈ wevOf p r) : e = QEvent.write p r := by
  unfold wevOf at h
  split at h
  · simp at h
  · simpa using h

theorem qWritePages_append (a b : List QEvent) :
    qWritePages (a ++ b) = qWritePages a ++ qWritePages b := by
  simp [qWritePages, List.filterMap_append]

theorem qLookupPages_append (a b : List QEvent) :
    qLookupPages (a ++ b) = qLookupPages a ++ qLookupPages b := by
  simp [qLookupPages, List.filterMap_append]

theorem qAckCount_append (a b : List QEvent) :
    qAckCount (a ++ b) = qAckCount a + qAckCount b := by
  simp [qAckCount, List.filterMap_append]

theorem qWritePages_wevOf (p : Nat) (r : List (Str × Str)) :
    qWritePages (wevOf p r) = if r = [] then [] else [p] := by
  unfold wevOf
  split <;> simp [qWritePages]

theorem qLookupPages_wevOf (p : Nat) (r : List (Str × Str)) :
    qLookupPages (wevOf p r) = [] := by
  unfold wevOf
  split <;> simp [qLookupPages]

theorem qAckCount_wevOf (p : Nat) (r : List (Str × Str)) :
    qAckCount (wevOf p r) = 0 := by
  unfold wevOf
  split <;> simp [qAckCount]

theorem qWritePages_cons_found (p k : Nat) (l : List QEvent) :
    qWritePages (QEvent.lookupFound p k :: l) = qWritePages l := by
  simp [qWritePages]

theorem qLookupPages_cons_found (p k : Nat) (l : List QEvent) :
    qLookupPages (QEvent.lookupFound p k :: l) = p :: qLookupPages l := by
  simp [qLookupPages]

/-- Every event a pagination run can emit: writes, finds recorded with
counter 0, misses, and acknowledgments recorded with counter 0. -/
theorem execPages_event_shape (cfg : Config) (env : PageEnv) :
    ∀ fuel page_num counter e,
      e ∈ (execPages cfg env fuel page_num counter).events →
      (∃ pg r, e = QEvent.write pg r) ∨ (∃ pg, e = QEvent.lookupFound pg 0) ∨
      (∃ pg k, e = QEvent.lookupMiss pg k) ∨ e = QEvent.ackReset 0 := by
  intro fuel
  induction fuel with
  | zero => intro p c e h; simp [execPages] at h
  | succ n ih =>
    intro p c e h
    simp only [execPages] at h
    split at h
    · exact Or.inl ⟨p, _, mem_wevOf h⟩
    · split at h
      · split at h
        · rcases List.mem_append.mp h with h1 | h1
          · exact Or.inl ⟨p, _, mem_wevOf h1⟩
          · rcases List.mem_singleton.mp h1 with rfl
            exact Or.inr (Or.inl ⟨p, rfl⟩)
        · rcases List.mem_append.mp h with h1 | h1
          · exact Or.inl ⟨p, _, mem_wevOf h1⟩
          · rcases List.mem_cons.mp h1 with rfl | h2
            · exact Or.inr (Or.inl ⟨p, rfl⟩)
            · exact ih (p + 1) 0 e h2
      · split at h
        · rcases List.mem_append.mp h with h1 | h1
          · exact Or.inl ⟨p, _, mem_wevOf h1⟩
          · rcases List.mem_cons.mp h1 with rfl | h2
            · exact Or.inr (Or.inr (Or.inl ⟨p, c + 1, rfl⟩))
            · rcases List.mem_singleton.mp h2 with rfl
              exact Or.inr (Or.inr (Or.inr rfl))
        · rcases List.mem_append.mp h with h1 | h1
          · exact Or.inl ⟨p, _, mem_wevOf h1⟩
          · rcases List.mem_singleton.mp h1 with rfl
            exact Or.inr (Or.inr (Or.inl ⟨p, c + 1, rfl⟩))

/-- C1 (amended): the consecutive-no-next counter is set to zero
whenever the next-page control is successfully found, and again after an
operator acknowledgment — every find event and every acknowledgment
event records counter value 0.  (The counter is however NOT reset at the
start of a new query attempt or retry; see the counterexample.) -/
theorem consecutive_no_next_reset_on_found_or_ack (cfg : Config) (env : PageEnv)
    (fuel page_num counter pg k : Nat)
    (h : QEvent.lookupFound pg k ∈ (execPages cfg env fuel page_num counter).events ∨
         QEvent.ackReset k ∈ (execPages cfg env fuel page_num counter).events) :
    k = 0 := by
  rcases h with h | h
  · rcases execPages_event_shape cfg env fuel page_num counter _ h with
      ⟨pg2, r2, he⟩ | ⟨pg2, he⟩ | ⟨pg2, k2, he⟩ | he <;> simp_all
  · rcases execPages_event_shape cfg env fuel page_num counter _ h with
      ⟨pg2, r2, he⟩ | ⟨pg2, he⟩ | ⟨pg2, k2, he⟩ | he <;> simp_all

/-- Concrete instance of the amended C1: a find event with counter 0
occurs and the theorem applies to it. -/
theorem consecutive_no_next_reset_on_found_or_ack_witness : (0 : Nat) = 0 :=
  consecutive_no_next_reset_on_found_or_ack ⟨2, 2, [['a']]⟩ envC1found 2 1 5 1 0
    (Or.inl (by decide))

/-- C1 counterexample: with two queries and the next-page control never
found, query 0's single miss leaves the counter at 1 and the attempt for
query index 1 STARTS with the consecutive-no-next counter equal to 1,
not 0 — the counter is not reset when execution moves to a different
query.  (The run's attempts start with counters [0, 1].) -/
theorem attempt_counter_not_reset_counterexample :
    attemptCounters
      (run_all_queries cfgC1 (fun _ => true) (fun _ => envC1miss) 3 0 0 0 0)
      = [0, 1] ∧ (1 : Nat) ≠ 0 := by decide

/-- C6: every `restart` tears down the live session and relaunches with
the profile directory observed empty at relaunch, after the fixed
2000 ms settle sleep; on relaunch failure it reports the error and the
manager holds no live session (`browser = none`), on success it holds
exactly the fresh session. -/
theorem restart_wipes_profile_and_teardown (launchOk : Bool) (sid : Nat)
    (st : MState) :
    (restart launchOk sid st).profileAtLaunch = [] ∧
    (restart launchOk sid st).sleptMs = 2000 ∧
    (restart launchOk sid st).state.browser
      = (if launchOk then some sid else none) ∧
    (restart launchOk sid st).ok = launchOk := by
  rcases st with ⟨b, ⟨pe, entries⟩⟩
  cases launchOk <;> cases pe <;>
    simp [restart, launch_browser, clear_profile_dir, init_profile_dir]

/-! ## Step lemmas for the pagination loop -/

/-- One loop iteration at the page cap: write (if non-empty) and stop,
with no next-page lookup. -/
theorem execPages_cap_step (cfg : Config) (env : PageEnv)
    (fuel page_num counter : Nat) (hcap : page_num ≥ cfg.max_pages) :
    execPages cfg env (fuel + 1) page_num counter =
      ⟨wevOf page_num (extract_search_results (env.anchors page_num)),
       counter, true⟩ := by
  simp only [execPages]
  rw [if_pos hcap]

/-- One loop iteration below the cap with the next-page control found
and the click succeeding: reset the counter to 0 and continue at the
next page. -/
theorem execPages_found_step (cfg : Config) (env : PageEnv)
    (fuel page_num counter : Nat) (hcap : page_num < cfg.max_pages)
    (hnf : env.next_found page_num = true)
    (hcf : env.click_fails page_num = false) :
    execPages cfg env (fuel + 1) page_num counter =
      ⟨wevOf page_num (extract_search_results (env.anchors page_num)) ++
        QEvent.lookupFound page_num 0 ::
          (execPages cfg env fuel (page_num + 1) 0).events,
       (execPages cfg env fuel (page_num + 1) 0).counter,
       (execPages cfg env fuel (page_num + 1) 0).isOk⟩ := by
  simp only [execPages]
  rw [if_neg (by omega), if_pos hnf, if_neg (by simp [hcf])]

/-- One loop iteration below the cap with the next-page control
missing: increment the counter, acknowledge and reset it when the
threshold is reached, and stop. -/
theorem execPages_miss_step (cfg : Config) (env : PageEnv)
    (fuel page_num counter : Nat) (hcap : page_num < cfg.max_pages)
    (hnf : env.next_found page_num = false) :
    execPages cfg env (fuel + 1) page_num counter =
      if counter + 1 ≥ cfg.max_consecutive_no_next then
        ⟨wevOf page_num (extract_search_results (env.anchors page_num)) ++
          [QEvent.lookupMiss page_num (counter + 1), QEvent.ackReset 0],
         0, true⟩
      else
        ⟨wevOf page_num (extract_search_results (env.anchors page_num)) ++
          [QEvent.lookupMiss page_num (counter + 1)], counter + 1, true⟩ := by
  simp only [execPages]
  rw [if_neg (by omega), if_neg (by simp [hnf])]

/-! ## C4: the no-next threshold and the acknowledgment path -/

/-- C4: with the consecutive-no-next threshold configured to 2 and the
next-page control absent on page 1 (page cap at least 2, so the lookup
happens): a query run entered with counter 0 performs one lookup miss,
triggers no acknowledgment, and ends the query with counter 1 — a
single miss below the threshold ends the query without the
acknowledgment path; the following query run entered with counter 1 is
the second consecutive miss, triggers the blocking acknowledgment
exactly once, and ends with the counter reset to 0. -/
theorem second_miss_triggers_single_ack (cfg : Config) (env1 env2 : PageEnv)
    (hth : cfg.max_consecutive_no_next = 2) (hmp : 2 ≤ cfg.max_pages)
    (h1 : env1.next_found 1 = false) (h2 : env2.next_found 1 = false) :
    qAckCount (execute_single_query cfg env1 0).events = 0 ∧
    (execute_single_query cfg env1 0).counter = 1 ∧
    qLookupPages (execute_single_query cfg env1 0).events = [1] ∧
    (execute_single_query cfg env1 0).isOk = true ∧
    qAckCount (execute_single_query cfg env2 1).events = 1 ∧
    (execute_single_query cfg env2 1).counter = 0 ∧
    qLookupPages (execute_single_query cfg env2 1).events = [1] ∧
    (execute_single_query cfg env2 1).isOk = true := by
  obtain ⟨m, hm⟩ : ∃ m, cfg.max_pages = m + 2 := ⟨cfg.max_pages - 2, by omega⟩
  have e1 := execPages_miss_step cfg env1 (m + 1) 1 0 (by omega) h1
  have e2 := execPages_miss_step cfg env2 (m + 1) 1 1 (by omega) h2
  rw [hth, if_neg (by omega)] at e1
  rw [hth, if_pos (by omega)] at e2
  have hq1 : execute_single_query cfg env1 0 =
      ⟨wevOf 1 (extract_search_results (env1.anchors 1)) ++
        [QEvent.lookupMiss 1 1], 1, true⟩ := by
    unfold execute_single_query
    rw [hm]
    exact e1
  have hq2 : execute_single_query cfg env2 1 =
      ⟨wevOf 1 (extract_search_results (env2.anchors 1)) ++
        [QEvent.lookupMiss 1 2, QEvent.ackReset 0], 0, true⟩ := by
    unfold execute_single_query
    rw [hm]
    exact e2
  rw [hq1, hq2]
  refine ⟨?_, rfl, ?_, rfl, ?_, rfl, ?_, rfl⟩
  · rw [show (QOut.mk (wevOf 1 (extract_search_results (env1.anchors 1)) ++
      [QEvent.lookupMiss 1 1]) 1 true).events =
        wevOf 1 (extract_search_results (env1.anchors 1)) ++
          [QEvent.lookupMiss 1 1] from rfl,
      qAckCount_append, qAckCount_wevOf]
    decide
  · rw [show (QOut.mk (wevOf 1 (extract_search_results (env1.anchors 1)) ++
      [QEvent.lookupMiss 1 1]) 1 true).events =
        wevOf 1 (extract_search_results (env1.anchors 1)) ++
          [QEvent.lookupMiss 1 1] from rfl,
      qLookupPages_append, qLookupPages_wevOf]
    decide
  · rw [show (QOut.mk (wevOf 1 (extract_search_results (env2.anchors 1)) ++
      [QEvent.lookupMiss 1 2, QEvent.ackReset 0]) 0 true).events =
        wevOf 1 (extract_search_results (env2.anchors 1)) ++
          [QEvent.lookupMiss 1 2, QEvent.ackReset 0] from rfl,
      qAckCount_append, qAckCount_wevOf]
    decide
  · rw [show (QOut.mk (wevOf 1 (extract_search_results (env2.anchors 1)) ++
      [QEvent.lookupMiss 1 2, QEvent.ackReset 0]) 0 true).events =
        wevOf 1 (extract_search_results (env2.anchors 1)) ++
          [QEvent.lookupMiss 1 2, QEvent.ackReset 0] from rfl,
      qLookupPages_append, qLookupPages_wevOf]
    decide

/-- Concrete instance of C4 with threshold 2, page cap 2, next-page
control absent. -/
theorem second_miss_triggers_single_ack_witness :
    qAckCount (execute_single_query cfgC4 envC4 0).events = 0 ∧
    (execute_single_query cfgC4 envC4 0).counter = 1 ∧
    qLookupPages (execute_single_query cfgC4 envC4 0).events = [1] ∧
    (execute_single_query cfgC4 envC4 0).isOk = true ∧
    qAckCount (execute_single_query cfgC4 envC4 1).events = 1 ∧
    (execute_single_query cfgC4 envC4 1).counter = 0 ∧
    qLookupPages (execute_single_query cfgC4 envC4 1).events = [1] ∧
    (execute_single_query cfgC4 envC4 1).isOk = true :=
  second_miss_triggers_single_ack cfgC4 envC4 envC4 rfl (by decide) rfl rfl

/-! ## C3: the page cap -/

/-- C3 (amended): with the page cap configured to 3, a query for which
the next-page control is always present and found, clicks succeed, and
every page among 1..3 extracts at least one record, produces exactly
the persisted page files numbered 1, 2, 3 in that order, and pagination
terminates at the cap having performed next-page lookups on pages 1 and
2 only — no next-page lookup on page 3. -/
theorem cap_three_pages_three_files (cfg : Config) (env : PageEnv)
    (counter : Nat) (hmp : cfg.max_pages = 3)
    (hnf : ∀ p, env.next_found p = true)
    (hcf : ∀ p, env.click_fails p = false)
    (hr1 : extract_search_results (env.anchors 1) ≠ [])
    (hr2 : extract_search_results (env.anchors 2) ≠ [])
    (hr3 : extract_search_results (env.anchors 3) ≠ []) :
    qWritePages (execute_single_query cfg env counter).events = [1, 2, 3] ∧
    qLookupPages (execute_single_query cfg env counter).events = [1, 2] ∧
    (execute_single_query cfg env counter).isOk = true := by
  have e3 := execPages_cap_step cfg env 0 3 0 (by omega)
  have e2 := execPages_found_step cfg env 1 2 0 (by omega) (hnf 2) (hcf 2)
  have e1 := execPages_found_step cfg env 2 1 counter (by omega) (hnf 1) (hcf 1)
  have hq : execute_single_query cfg env counter =
      ⟨wevOf 1 (extract_search_results (env.anchors 1)) ++
        QEvent.lookupFound 1 0 ::
          (wevOf 2 (extract_search_results (env.anchors 2)) ++
            QEvent.lookupFound 2 0 ::
              wevOf 3 (extract_search_results (env.anchors 3))),
       0, true⟩ := by
    unfold execute_single_query
    rw [hmp]
    rw [show (3 : Nat) = 2 + 1 from rfl] at e3 ⊢
    rw [e1]
    rw [show (2 : Nat) = 1 + 1 from rfl] at e2 ⊢
    rw [e2, e3]
  rw [hq]
  refine ⟨?_, ?_, rfl⟩
  · show qWritePages (wevOf 1 (extract_search_results (env.anchors 1)) ++
      QEvent.lookupFound 1 0 ::
        (wevOf 2 (extract_search_results (env.anchors 2)) ++
          QEvent.lookupFound 2 0 ::
            wevOf 3 (extract_search_results (env.anchors 3)))) = [1, 2, 3]
    simp [qWritePages_append, qWritePages_cons_found, qWritePages_wevOf,
      hr1, hr2, hr3]
  · show qLookupPages (wevOf 1 (extract_search_results (env.anchors 1)) ++
      QEvent.lookupFound 1 0 ::
        (wevOf 2 (extract_search_results (env.anchors 2)) ++
          QEvent.lookupFound 2 0 ::
            wevOf 3 (extract_search_results (env.anchors 3)))) = [1, 2]
    simp [qLookupPages_append, qLookupPages_cons_found, qLookupPages_wevOf]

/-- Concrete instance of the amended C3: one record per page, next-page
control always found, cap 3: three files 1, 2, 3 and lookups on pages 1
and 2 only. -/
theorem cap_three_pages_three_files_witness :
    qWritePages (execute_single_query cfgC3 envC3full 0).events = [1, 2, 3] ∧
    qLookupPages (execute_single_query cfgC3 envC3full 0).events = [1, 2] ∧
    (execute_single_query cfgC3 envC3full 0).isOk = true :=
  cap_three_pages_three_files cfgC3 envC3full 0 rfl (fun _ => rfl) (fun _ => rfl)
    (by decide) (by decide) (by decide)

/-- C3 counterexample: a query whose next-page control is always
present and found but whose pages all extract the empty record list
persists ZERO page files under page cap 3 (the source writes no file
for an empty extraction), refuting "exactly 3 persisted page files";
the lookup pattern (pages 1 and 2 only) and normal termination are
unchanged. -/
theorem cap_three_pages_counterexample :
    qWritePages (execute_single_query cfgC3 envC3empty 0).events = [] ∧
    qLookupPages (execute_single_query cfgC3 envC3empty 0).events = [1, 2] ∧
    (execute_single_query cfgC3 envC3empty 0).isOk = true ∧
    qWritePages (execute_single_query cfgC3 envC3empty 0).events ≠ [1, 2, 3] := by
  decide

/-! ## C10 and C7: which pages get written -/

/-- A page number appears among the write events only if its extraction
was non-empty: `save_search_results_json` is guarded by
`!results.is_empty()`. -/
theorem execPages_write_page_has_results (cfg : Config) (env : PageEnv) :
    ∀ fuel q c p, p ∈ qWritePages (execPages cfg env fuel q c).events →
      extract_search_results (env.anchors p) ≠ [] := by
  intro fuel
  induction fuel with
  | zero => intro q c p h; simp [execPages, qWritePages] at h
  | succ n ih =>
    intro q c p h
    simp only [execPages] at h
    split at h
    · simp only [qWritePages_wevOf] at h
      split at h
      · simp at h
      · rename_i hres
        rcases List.mem_singleton.mp h with rfl
        exact hres
    · split at h
      · split at h
        · simp only [qWritePages_append, qWritePages_wevOf] at h
          rw [List.mem_append] at h
          rcases h with h | h
          · split at h
            · simp at h
            · rename_i hres
              rcases List.mem_singleton.mp h with rfl
              exact hres
          · simp [qWritePages] at h
        · simp only [qWritePages_append, qWritePages_wevOf,
            qWritePages_cons_found] at h
          rw [List.mem_append] at h
          rcases h with h | h
          · split at h
            · simp at h
            · rename_i hres
              rcases List.mem_singleton.mp h with rfl
              exact hres
          · exact ih (q + 1) 0 p h
      · split at h
        · simp only [qWritePages_append, qWritePages_wevOf] at h
          rw [List.mem_append] at h
          rcases h with h | h
          · split at h
            · simp at h
            · rename_i hres
              rcases List.mem_singleton.mp h with rfl
              exact hres
          · simp [qWritePages] at h
        · simp only [qWritePages_append, qWritePages_wevOf] at h
          rw [List.mem_append] at h
          rcases h with h | h
          · split at h
            · simp at h
            · rename_i hres
              rcases List.mem_singleton.mp h with rfl
              exact hres
          · simp [qWritePages] at h

/-- C10: a page whose extraction yields the empty record list is never
written (no file for that page number anywhere in the run), while
pagination continues normally: an iteration entering such a page below
the cap still proceeds directly to the next-page lookup (the first
event of that iteration is the lookup resolution at that page). -/
theorem empty_page_not_written_pagination_continues (cfg : Config)
    (env : PageEnv) (p : Nat)
    (hempty : extract_search_results (env.anchors p) = []) :
    (∀ fuel q c, p ∉ qWritePages (execPages cfg env fuel q c).events) ∧
    (∀ fuel c, p < cfg.max_pages →
      ((execPages cfg env (fuel + 1) p c).events.head?.bind lookupPageOf)
        = some p) := by
  constructor
  · intro fuel q c hmem
    exact execPages_write_page_has_results cfg env fuel q c p hmem hempty
  · intro fuel c hlt
    simp only [execPages, hempty, wevOf, if_pos rfl, List.nil_append]
    rw [if_neg (by omega)]
    split
    · split
      · simp [lookupPageOf]
      · simp [lookupPageOf]
    · split
      · simp [lookupPageOf]
      · simp [lookupPageOf]

/-- Concrete instance of C10: page 1 extracts nothing — it is not
written, and the iteration at page 1 proceeds to the next-page lookup. -/
theorem empty_page_not_written_witness :
    (1 ∉ qWritePages (execPages cfgC10 envC10 2 1 0).events) ∧
    ((execPages cfgC10 envC10 (1 + 1) 1 0).events.head?.bind lookupPageOf)
      = some 1 :=
  ⟨(empty_page_not_written_pagination_continues cfgC10 envC10 1 (by decide)).1
      2 1 0,
   (empty_page_not_written_pagination_continues cfgC10 envC10 1 (by decide)).2
      1 0 (by decide)⟩

/-- Written page numbers never precede the page the loop entered at. -/
theorem execPages_writePages_lb (cfg : Config) (env : PageEnv) :
    ∀ fuel q c p, p ∈ qWritePages (execPages cfg env fuel q c).events →
      q ≤ p := by
  intro fuel
  induction fuel with
  | zero => intro q c p h; simp [execPages, qWritePages] at h
  | succ n ih =>
    intro q c p h
    simp only [execPages] at h
    split at h
    · simp only [qWritePages_wevOf] at h
      split at h
      · simp at h
      · rcases List.mem_singleton.mp h with rfl
        exact le_refl p
    · split at h
      · split at h
        · simp only [qWritePages_append, qWritePages_wevOf] at h
          rw [List.mem_append] at h
          rcases h with h | h
          · split at h
            · simp at h
            · rcases List.mem_singleton.mp h with rfl
              exact le_refl p
          · simp [qWritePages] at h
        · simp only [qWritePages_append, qWritePages_wevOf,
            qWritePages_cons_found] at h
          rw [List.mem_append] at h
          rcases h with h | h
          · split at h
            · simp at h
            · rcases List.mem_singleton.mp h with rfl
              exact le_refl p
          · have := ih (q + 1) 0 p h
            omega
      · split at h
        · simp only [qWritePages_append, qWritePages_wevOf] at h
          rw [List.mem_append] at h
          rcases h with h | h
          · split at h
            · simp at h
            · rcases List.mem_singleton.mp h with rfl
              exact le_refl p
          · simp [qWritePages] at h
        · simp only [qWritePages_append, qWritePages_wevOf] at h
          rw [List.mem_append] at h
          rcases h with h | h
          · split at h
            · simp at h
            · rcases List.mem_singleton.mp h with rfl
              exact le_refl p
          · simp [qWritePages] at h

/-- Within one attempt the written page numbers strictly increase. -/
theorem execPages_writePages_chain (cfg : Config) (env : PageEnv) :
    ∀ fuel q c, List.Chain' (fun a b => a < b)
      (qWritePages (execPages cfg env fuel q c).events) := by
  intro fuel
  induction fuel with
  | zero => intro q c; simp [execPages, qWritePages]
  | succ n ih =>
    intro q c
    simp only [execPages]
    split
    · simp only [qWritePages_wevOf]
      split <;> simp
    · split
      · split
        · simp only [qWritePages_append, qWritePages_wevOf]
          have hnil : qWritePages [QEvent.lookupFound q 0] = [] := by
            simp [qWritePages]
          rw [hnil, List.append_nil]
          split <;> simp
        · simp only [qWritePages_append, qWritePages_wevOf,
            qWritePages_cons_found]
          refine List.Chain'.append ?_ (ih (q + 1) 0) ?_
          · split <;> simp
          · intro x hx y hy
            have hy2 : y ∈ qWritePages (execPages cfg env n (q + 1) 0).events :=
              List.mem_of_mem_head? hy
            have hley := execPages_writePages_lb cfg env n (q + 1) 0 y hy2
            have hx2 : q = x := by
              split at hx
              · simp at hx
              · simpa using hx
            omega
      · split
        · simp only [qWritePages_append, qWritePages_wevOf]
          have hnil : qWritePages
              [QEvent.lookupMiss q (c + 1), QEvent.ackReset 0] = [] := by
            simp [qWritePages]
          rw [hnil, List.append_nil]
          split <;> simp
        · simp only [qWritePages_append, qWritePages_wevOf]
          have hnil : qWritePages [QEvent.lookupMiss q (c + 1)] = [] := by
            simp [qWritePages]
          rw [hnil, List.append_nil]
          split <;> simp

/-- C7 (amended): within a single query attempt the persisted page
numbers are strictly increasing, hence pairwise distinct — one attempt
never writes the same (query, page) file twice.  Across a run a page
file CAN be rewritten: a retry of a failed query repeats its writes,
and two queries with the same sanitized directory share files (see the
counterexample and C9). -/
theorem single_attempt_page_writes_unique (cfg : Config) (env : PageEnv)
    (counter : Nat) :
    List.Chain' (fun a b => a < b)
      (qWritePages (execute_single_query cfg env counter).events) ∧
    (qWritePages (execute_single_query cfg env counter).events).Nodup := by
  have hc := execPages_writePages_chain cfg env cfg.max_pages 1 counter
  refine ⟨hc, ?_⟩
  have hp := List.chain'_iff_pairwise.mp hc
  exact hp.imp fun h => Nat.ne_of_lt h

/-- C7 counterexample: one query whose next-page click always fails
(page cap 2, retry budget 3): every one of the three attempts persists
page 1's file into the same directory, so the (query, page 1) file is
written three times in one run — later writes overwrite the earlier
file, refuting "written exactly once and never overwritten". -/
theorem page_file_rewritten_on_retry_counterexample :
    fileWrites (run_all_queries cfgC7 (fun _ => true) (fun _ => envC7) 4 0 0 0 0)
      = [(['a'], 1), (['a'], 1), (['a'], 1)] ∧
    ¬ (fileWrites
        (run_all_queries cfgC7 (fun _ => true) (fun _ => envC7) 4 0 0 0 0)).Nodup
    := by decide

/-! ## C2: the per-query retry policy -/

/-- C2: when a query attempt at `query_index` fails, the orchestrator
increments the retry count; if that makes 3 consecutive failures
(`retry_count + 1 ≥ MAX_RETRIES`) it advances to the next query index
with the retry counter reset to 0 and no browser restart; otherwise it
restarts the browser session and retries the same query index with the
incremented retry count, without advancing. -/
theorem retry_policy (cfg : Config) (tabOk : Nat → Bool) (env : Nat → PageEnv)
    (fuel t query_index retry_count counter : Nat)
    (hq : query_index < cfg.search_queries.length)
    (htab : tabOk t = true)
    (hfail : (execute_single_query cfg (env t) counter).isOk = false) :
    run_all_queries cfg tabOk env (fuel + 1) t query_index retry_count counter =
      (RunEvent.attemptStart query_index retry_count counter ::
        attemptEvents (cfg.search_queries.getD query_index [])
          (execute_single_query cfg (env t) counter).events) ++
      (if retry_count + 1 ≥ MAX_RETRIES then
        run_all_queries cfg tabOk env fuel (t + 1) (query_index + 1) 0
          (execute_single_query cfg (env t) counter).counter
      else
        RunEvent.restartBrowser ::
          run_all_queries cfg tabOk env fuel (t + 1) query_index
            (retry_count + 1)
            (execute_single_query cfg (env t) counter).counter) := by
  simp only [run_all_queries]
  rw [if_pos hq, if_pos htab, hfail]
  rw [if_neg (by simp)]
  split <;> rfl

/-- Concrete instance of C2: a first failure (retry count 0) leads to a
browser restart and a retry of the same query index with retry count 1. -/
theorem retry_policy_witness :
    run_all_queries cfgC2 (fun _ => true) (fun _ => envC2) (2 + 1) 0 0 0 0 =
      (RunEvent.attemptStart 0 0 0 ::
        attemptEvents (cfgC2.search_queries.getD 0 [])
          (execute_single_query cfgC2 envC2 0).events) ++
      (if 0 + 1 ≥ MAX_RETRIES then
        run_all_queries cfgC2 (fun _ => true) (fun _ => envC2) 2 1 1 0
          (execute_single_query cfgC2 envC2 0).counter
      else
        RunEvent.restartBrowser ::
          run_all_queries cfgC2 (fun _ => true) (fun _ => envC2) 2 1 0 1
            (execute_single_query cfgC2 envC2 0).counter) :=
  retry_policy cfgC2 (fun _ => true) (fun _ => envC2) 2 0 0 0 0
    (by decide) rfl (by decide)

end Gnezdo
